import Mathlib

set_option maxHeartbeats 1000000
set_option linter.unusedVariables false

/-!
Verification of the markov_football match model.
This file gives a shallow embedding of `src/markov_football/markov_football.py`:
the data model (positions, possession states, abilities, players, lineups), the
transition builder `_calculate_team_probs` / `calculate_markov_chain`, the
lineup optimizer loop, and the ability dictionary constructor.  The absorption
machinery of the missing `markov.py` module (the `MarkovChain` class) is
modelled from the specification where noted.  Randomness in the optimizer is
modelled by an explicit stream of moves, and Python exceptions by `Except`.
-/

/-- Field positions (class `Position` in the source). -/
inductive Position where
  | GK
  | D
  | M
  | F
deriving DecidableEq, Repr

/-- Possession phases of one team (class `TeamState` in the source). -/
inductive TeamState where
  | WITH_GK
  | WITH_D
  | WITH_M
  | WITH_F
  | SCORED
deriving DecidableEq, Repr

/-- Chain states: a team name together with a possession phase
(the named tuple `S` in the source). -/
structure S where
  team : String
  team_state : TeamState
deriving DecidableEq, Repr

/-- Player abilities (class `Ability` in the source). -/
inductive Ability where
  | BLOCKING
  | TACKLING
  | INTERCEPTION
  | SHOOTING
  | DRIBBLING
  | PASSING
deriving DecidableEq, Repr

/-- One weighted transition of the chain (the named tuple `Tx` of the missing
`markov` module: source state, destination state, probability). -/
structure Tx where
  src : S
  dst : S
  p : ℝ

/-- A player.  Python compares `Player` dictionary keys by object identity, so
the embedding carries an identity tag `pid`; abilities are modelled as the
total function the `Abilities` dictionary constructor produces (see the
dictionary-level model near the end of the file). -/
structure Player where
  pid : ℕ
  age : ℕ
  abilities : Ability → ℝ

/-- A team lineup: a name and an insertion-ordered player-to-position
dictionary, modelled as an association list keyed by player identity. -/
structure TeamLineup where
  name : String
  players : List (Player × Position)

/-- Fixed multiplicative boost for goalkeeper aggregation (module constant
`goal_keeper_correction = 3.0`). -/
noncomputable def goal_keeper_correction : ℝ := 3.0

/-- Number of goalkeepers in a player dictionary. -/
def gkCount (ps : List (Player × Position)) : ℕ :=
  (ps.filter (fun q => q.2 == Position.GK)).length

/-- The validating `TeamLineup` constructor (`TeamLineup.__init__`): requires a
nonempty name, at most 11 players and at most one goalkeeper; a violation is a
raised `ValueError`, modelled as `Except.error`. -/
def mkTeamLineup (name : String) (players : List (Player × Position)) :
    Except String TeamLineup :=
  if name = "" then .error "Need a name."
  else if players.length > 11 then .error "Too many players!"
  else if gkCount players > 1 then .error "Can only have zero or one Goal Keepers."
  else .ok ⟨name, players⟩

/-- Python dictionary update `players[p] = pos`: reposition the existing entry
with the same key (keeping its place and its key object), otherwise append a
new entry at the end. -/
def dictUpdate (ps : List (Player × Position)) (pl : Player) (pos : Position) :
    List (Player × Position) :=
  if ps.any (fun q => q.1.pid == pl.pid) then
    ps.map (fun q => if q.1.pid == pl.pid then (q.1, pos) else q)
  else ps ++ [(pl, pos)]

/-- `TeamLineup.with_player_positions`: copy the dictionary, apply the
reassignments in order, and rebuild through the validating constructor. -/
def TeamLineup.with_player_positions (l : TeamLineup)
    (pps : List (Player × Position)) : Except String TeamLineup :=
  mkTeamLineup l.name (pps.foldl (fun ps q => dictUpdate ps q.1 q.2) l.players)

/-- Dictionary lookup of a position by player identity (`lineup[player]`,
`None` standing for a `KeyError`). -/
def posOf (ps : List (Player × Position)) (pid : ℕ) : Option Position :=
  (ps.find? (fun q => q.1.pid == pid)).map (·.2)

/-- Lookup of a position of a player in a lineup. -/
def TeamLineup.lookupPos (l : TeamLineup) (pl : Player) : Option Position :=
  posOf l.players pl.pid

/-- `TeamLineup.total_ability`: square root of the summed ability of the
players at the given position, the sum boosted by `goal_keeper_correction`
for the goalkeeper position. -/
noncomputable def TeamLineup.total_ability (l : TeamLineup) (ab : Ability)
    (pos : Position) : ℝ :=
  Real.sqrt
    ((((l.players.filter (fun q => q.2 == pos)).map (fun q => q.1.abilities ab)).sum) *
      (if pos = Position.GK then goal_keeper_correction else 1.0))

/-- The logistic transfer function `logistic(x) = 1 / (1 + exp(-x))`. -/
noncomputable def logistic (x : ℝ) : ℝ := 1.0 / (1.0 + Real.exp (-x))

/-- `_calculate_team_probs`: the transition list of one team against the
other.  The source computes several additional candidate probabilities
(`p_gk_m`, `p_gk_f`, `p_d_d`, `p_m_m`, `p_m_sc`, `p_f_f`) whose transitions
are commented out of the returned list; they are kept here as unused bindings
to mirror the source text. -/
noncomputable def _calculate_team_probs (lineup other_lineup : TeamLineup) :
    List Tx :=
  let name := lineup.name
  let other_name := other_lineup.name
  let gk_passing := lineup.total_ability Ability.PASSING Position.GK
  let d_passing := lineup.total_ability Ability.PASSING Position.D
  let m_passing := lineup.total_ability Ability.PASSING Position.M
  let f_passing := lineup.total_ability Ability.PASSING Position.F
  let of_intercepting := other_lineup.total_ability Ability.INTERCEPTION Position.F
  let om_intercepting := other_lineup.total_ability Ability.INTERCEPTION Position.M
  let od_intercepting := other_lineup.total_ability Ability.INTERCEPTION Position.D
  let d_dribbling := lineup.total_ability Ability.DRIBBLING Position.D
  let m_dribbling := lineup.total_ability Ability.DRIBBLING Position.M
  let f_dribbling := lineup.total_ability Ability.DRIBBLING Position.F
  let of_tackling := other_lineup.total_ability Ability.TACKLING Position.F
  let om_tackling := other_lineup.total_ability Ability.TACKLING Position.M
  let od_tackling := other_lineup.total_ability Ability.TACKLING Position.D
  let ogk_tackling := other_lineup.total_ability Ability.TACKLING Position.GK
  let m_shooting := lineup.total_ability Ability.SHOOTING Position.M
  let f_shooting := lineup.total_ability Ability.SHOOTING Position.F
  let om_blocking := other_lineup.total_ability Ability.BLOCKING Position.M
  let od_blocking := other_lineup.total_ability Ability.BLOCKING Position.D
  let ogk_blocking := other_lineup.total_ability Ability.BLOCKING Position.GK
  let p_gk_d := logistic (gk_passing - of_intercepting)
  let p_gk_m := logistic (gk_passing - om_intercepting)
  let p_gk_f := logistic (gk_passing - od_intercepting)
  let p_d_d := logistic (d_passing + d_dribbling - of_tackling)
  let p_d_m := logistic (d_passing + d_dribbling - of_tackling - om_intercepting)
  let p_m_m := logistic (m_passing + m_dribbling - om_tackling)
  let p_m_f := logistic (m_passing + m_dribbling - om_tackling - od_intercepting)
  let p_m_sc := logistic (m_shooting + m_dribbling - om_tackling - om_blocking -
    od_tackling - od_blocking - ogk_blocking)
  let p_f_f := logistic (f_passing + f_dribbling - od_tackling)
  let p_f_sc := logistic (f_shooting + f_dribbling - od_tackling - od_blocking -
    ogk_blocking)
  [ Tx.mk ⟨name, TeamState.WITH_GK⟩ ⟨name, TeamState.WITH_D⟩ p_gk_d,
    Tx.mk ⟨name, TeamState.WITH_GK⟩ ⟨other_name, TeamState.WITH_F⟩ (1.0 - p_gk_d),
    Tx.mk ⟨name, TeamState.WITH_D⟩ ⟨name, TeamState.WITH_M⟩ p_d_m,
    Tx.mk ⟨name, TeamState.WITH_D⟩ ⟨other_name, TeamState.WITH_M⟩ (1.0 - p_d_m),
    Tx.mk ⟨name, TeamState.WITH_M⟩ ⟨name, TeamState.WITH_F⟩ p_m_f,
    Tx.mk ⟨name, TeamState.WITH_M⟩ ⟨other_name, TeamState.WITH_D⟩ (1.0 - p_m_f),
    Tx.mk ⟨name, TeamState.WITH_F⟩ ⟨name, TeamState.SCORED⟩ p_f_sc,
    Tx.mk ⟨name, TeamState.WITH_F⟩ ⟨other_name, TeamState.WITH_GK⟩ (1.0 - p_f_sc) ]

/-- `calculate_markov_chain`: both teams' transition lists combined. -/
noncomputable def calculate_markov_chain (lineup1 lineup2 : TeamLineup) : List Tx :=
  _calculate_team_probs lineup1 lineup2 ++ _calculate_team_probs lineup2 lineup1

/-- Sum of the probabilities of the transitions leaving state `s`. -/
noncomputable def outgoingProbSum (txs : List Tx) (s : S) : ℝ :=
  (txs.map (fun t => if t.src = s then t.p else 0)).sum

/-- A concrete lineup used by witnesses: team A with no players. -/
def teamA : TeamLineup := ⟨"A", []⟩

/-- A concrete lineup used by witnesses: team B with no players. -/
def teamB : TeamLineup := ⟨"B", []⟩

/-- Total probability mass carried by the transitions from `s` to `d`. -/
noncomputable def txProb (txs : List Tx) (s d : S) : ℝ :=
  (txs.map (fun t => if t.src = s ∧ t.dst = d then t.p else 0)).sum

/-- Whether some transition of the chain leaves `s`. -/
def hasOutgoing (txs : List Tx) (s : S) : Bool :=
  txs.any (fun t => decide (t.src = s))

/-- Modelled from the spec: `MarkovChain.absorbing_states` of the missing
`markov` module; per the spec, the absorbing states are the states of the
chain with zero outgoing transitions (every such state appears as a
destination of some transition). -/
def absorbing_states (txs : List Tx) : List S :=
  ((txs.filter (fun t => !hasOutgoing txs t.dst)).map (·.dst)).dedup

/-- Modelled from the spec: the transient states of the chain are the states
that appear as a source of outgoing transitions. -/
def transient_states (txs : List Tx) : List S :=
  (txs.map (·.src)).dedup

/-- Modelled from the spec: the absorption probability from a start state
into one absorbing target state, computed by the fundamental matrix method of
the missing `markov` module: with Q the transient-to-transient sub-matrix and
r the transient-to-target column, solve (I - Q) b = r; for an absorbing start
the probability is one exactly on the target itself. -/
noncomputable def absorptionProb (txs : List Tx) (start target : S) : ℝ :=
  let trans := transient_states txs
  let Q : Matrix (Fin trans.length) (Fin trans.length) ℝ :=
    fun i j => txProb txs (trans.get i) (trans.get j)
  let r : Fin trans.length → ℝ := fun i => txProb txs (trans.get i) target
  let b := ((1 - Q)⁻¹).mulVec r
  if h : start ∈ trans then b ⟨trans.indexOf start, List.indexOf_lt_length.mpr h⟩
  else if start = target then 1 else 0

/-- Modelled from the spec: `MarkovChain.calculate_mean_outcome_given_states`
of the missing `markov` module; per the spec it averages the absorption
distribution uniformly across the supplied start states. -/
noncomputable def calculate_mean_outcome_given_states (txs : List Tx)
    (starts : List S) : S → ℝ :=
  fun target => ((starts.map (fun s => absorptionProb txs s target)).sum) / starts.length

/-- `next_goal_probs` (source): collect the team names of the absorbing
states of the chain and average the absorption distribution over the start
states pairing each requested phase with each such name. -/
noncomputable def next_goal_probs (txs : List Tx) (team_states : List TeamState) :
    S → ℝ :=
  let names := (absorbing_states txs).map S.team
  calculate_mean_outcome_given_states txs
    (team_states.flatMap (fun ts => names.map (fun n => S.mk n ts)))

/-- `evaluate_lineup` (source): for each reference lineup yield 0.5 when it
has the same name as the evaluated lineup, otherwise the probability of the
evaluated lineup reaching its own SCORED state in the chain built against
that reference. -/
noncomputable def evaluate_lineup (lineup : TeamLineup)
    (reference_lineups : List TeamLineup) (team_states : List TeamState) :
    List ℝ :=
  reference_lineups.map (fun r =>
    if r.name = lineup.name then 0.5
    else next_goal_probs (calculate_markov_chain lineup r) team_states
      ⟨lineup.name, TeamState.SCORED⟩)

/-- The objective the optimizer computes for a lineup: the sum of
`evaluate_lineup` over the group divided by the group size. -/
noncomputable def optimizerObjective (team_states : List TeamState)
    (lineup : TeamLineup) (reference_lineups : List TeamLineup) : ℝ :=
  (evaluate_lineup lineup reference_lineups team_states).sum /
    reference_lineups.length

/-- The next-goal probability as worded by claim C6: the absorption
probability into the own SCORED state, averaged over the start states pairing
each given phase with each of the two team names. -/
noncomputable def claimNextGoalProb (l r : TeamLineup)
    (phases : List TeamState) : ℝ :=
  let chain := calculate_markov_chain l r
  let starts := phases.flatMap (fun ph => [S.mk l.name ph, S.mk r.name ph])
  ((starts.map (fun s => absorptionProb chain s ⟨l.name, TeamState.SCORED⟩)).sum) /
    starts.length

/-- The objective as worded by claim C6: the mean over the group of the
next-goal probability against each other lineup, the self comparison
contributing the fixed value 0.5. -/
noncomputable def claimObjective (l : TeamLineup) (refs : List TeamLineup)
    (phases : List TeamState) : ℝ :=
  ((refs.map (fun r =>
    if r.name = l.name then (0.5 : ℝ) else claimNextGoalProb l r phases)).sum) /
    refs.length

/-- A random move of one optimizer trial, making the random draws of
`_experiment_with_positioning` explicit: reposition one player to a new
position, or swap the positions of two players. -/
inductive Move where
  | repos (player : Player) (newPos : Position)
  | swap (player1 player2 : Player)

/-- Type of the per-trial evaluation function the optimizer uses; the
concrete program instantiates it with `optimizerObjective`. -/
abbrev EvalFn := TeamLineup → List TeamLineup → ℝ

/-- `_experiment_with_positioning` (source): run one random trial.  An
`Except.error` is an uncaught exception (the `KeyError` of a player lookup
outside the protected block, unreachable in the source because players are
drawn from the lineup); `.ok (p, none)` is a rejected trial (a same-position
swap, or a candidate whose construction raised and was caught); and
`.ok (p, some candidate)` is a candidate lineup with its trial objective. -/
def _experiment_with_positioning (evalFn : EvalFn) (mv : Move)
    (lineup : TeamLineup) (reference_lineups : List TeamLineup) :
    Except String (ℝ × Option TeamLineup) :=
  match mv with
  | .repos player newPos =>
    match lineup.lookupPos player with
    | none => .error "KeyError"
    | some _ =>
      match lineup.with_player_positions [(player, newPos)] with
      | .error _ => .ok (0, none)
      | .ok new_lineup => .ok (evalFn new_lineup reference_lineups, some new_lineup)
  | .swap player1 player2 =>
    match lineup.lookupPos player1, lineup.lookupPos player2 with
    | some position1, some position2 =>
      if position1 = position2 then .ok (0, none)
      else
        match lineup.with_player_positions
            [(player1, position2), (player2, position1)] with
        | .error _ => .ok (0, none)
        | .ok new_lineup => .ok (evalFn new_lineup reference_lineups, some new_lineup)
    | _, _ => .error "KeyError"

/-- The optimizer state: the team-name-to-lineup dictionary together with the
stall counter `cycles_without_improvement`. -/
structure OptState where
  lineups : List (String × TeamLineup)
  cycles_without_improvement : ℕ

/-- Dictionary lookup by team name. -/
def lookupTeam (m : List (String × TeamLineup)) (nm : String) :
    Option TeamLineup :=
  (m.find? (fun e => e.1 == nm)).map (·.2)

/-- Dictionary update by team name (the key set never changes in the
optimizer: updated names are existing keys). -/
def updateTeam (m : List (String × TeamLineup)) (nm : String) (l : TeamLineup) :
    List (String × TeamLineup) :=
  m.map (fun e => if e.1 == nm then (e.1, l) else e)

/-- The values of the dictionary, in insertion order. -/
def valuesOf (m : List (String × TeamLineup)) : List TeamLineup :=
  m.map (·.2)

/-- One iteration of the inner for-loop of the optimizer for team `nm`:
compute the current objective against the current dictionary, run one trial
against the same dictionary, skip when the trial yields no candidate, and
accept the candidate, resetting the stall counter to zero, exactly when its
trial objective strictly exceeds the current objective. -/
noncomputable def optimiseStep (evalFn : EvalFn) (mv : Move) (st : OptState) (nm : String) :
    Except String OptState :=
  match lookupTeam st.lineups nm with
  | none => .error "KeyError"
  | some lineup =>
    let next_goal_p := evalFn lineup (valuesOf st.lineups)
    match _experiment_with_positioning evalFn mv lineup (valuesOf st.lineups) with
    | .error e => .error e
    | .ok (_, none) => .ok st
    | .ok (trial_next_goal_p, some trial_lineup) =>
      if trial_next_goal_p > next_goal_p then
        .ok ⟨updateTeam st.lineups nm trial_lineup, 0⟩
      else .ok st

/-- One full pass of the optimizer over the team names, threading the updated
state so that later teams are evaluated against earlier acceptances of the
same pass. -/
noncomputable def optimisePass (evalFn : EvalFn) (mvs : String → Move) :
    OptState → List String → Except String OptState
  | st, [] => .ok st
  | st, nm :: rest =>
    match optimiseStep evalFn (mvs nm) st nm with
    | .error e => .error e
    | .ok st' => optimisePass evalFn mvs st' rest

/-- One iteration of the outer while-loop: a full pass followed by the
unconditional increment of the stall counter. -/
noncomputable def optimiseCycle (evalFn : EvalFn) (mvs : String → Move) (st : OptState)
    (names : List String) : Except String OptState :=
  (optimisePass evalFn mvs st names).map
    (fun st' => ⟨st'.lineups, st'.cycles_without_improvement + 1⟩)

/-- The while-loop of the optimizer, with one random move stream per pass and
an explicit fuel bounding the number of passes (the source loop is bounded
only by the stall counter; on exhausted fuel the current state is returned
as is). -/
noncomputable def optimiseLoop (evalFn : EvalFn) (mvs : ℕ → String → Move)
    (max_cycles_without_improvement : ℕ) (names : List String) :
    ℕ → OptState → Except String OptState
  | 0, st => .ok st
  | fuel + 1, st =>
    if st.cycles_without_improvement < max_cycles_without_improvement then
      match optimiseCycle evalFn (mvs 0) st names with
      | .error e => .error e
      | .ok st' =>
        optimiseLoop evalFn (fun i => mvs (i + 1))
          max_cycles_without_improvement names fuel st'
    else .ok st

/-- `optmise_player_positions_in_parrallel` (source): run the optimizer loop
on the given dictionary, with the concrete objective built from
`evaluate_lineup` for the given start phases, and return the final
dictionary. -/
noncomputable def optmise_player_positions_in_parrallel
    (lineups_by_name : List (String × TeamLineup))
    (team_states : List TeamState) (mvs : ℕ → String → Move) (fuel : ℕ)
    (max_cycles_without_improvement : ℕ) :
    Except String (List (String × TeamLineup)) :=
  (optimiseLoop (fun l refs => optimizerObjective team_states l refs) mvs
      max_cycles_without_improvement (lineups_by_name.map (·.1)) fuel
      ⟨lineups_by_name, 0⟩).map OptState.lineups

/-- A concrete player with identity tag 1 and all abilities zero. -/
def player1 : Player := ⟨1, 16, fun _ => 0⟩

/-- A concrete player with identity tag 2 and all abilities zero. -/
def player2 : Player := ⟨2, 16, fun _ => 0⟩

/-- A concrete goalkeeper with identity tag 3 and all abilities zero. -/
def playerGK : Player := ⟨3, 16, fun _ => 0⟩

/-- A concrete lineup with both players in midfield. -/
def lineupMM : TeamLineup := ⟨"A", [(player1, Position.M), (player2, Position.M)]⟩

/-- The lineup obtained from `lineupMM` by repositioning `player1` forward. -/
def lineupFM : TeamLineup := ⟨"A", [(player1, Position.F), (player2, Position.M)]⟩

/-- A concrete lineup with a goalkeeper and a defender. -/
def lineupGKD : TeamLineup :=
  ⟨"C", [(playerGK, Position.GK), (player1, Position.D)]⟩

/-- A concrete evaluation function rewarding `player1` playing forward. -/
def evalX : EvalFn := fun l _ =>
  if l.players.any (fun q => q.1.pid == 1 && q.2 == Position.F) then 1 else 0

/-- The last position assigned to player identity `x` by a reassignment
list, if any. -/
def assignedPos (pps : List (Player × Position)) (x : ℕ) : Option Position :=
  (pps.reverse.find? (fun q => q.1.pid == x)).map (·.2)

/-- The lineup obtained from `lineupGKD` by moving its defender to
midfield. -/
def lineupGKM : TeamLineup := ⟨"C", [(playerGK, Position.GK), (player1, Position.M)]⟩

/-- The six abilities in enumeration order. -/
def Ability.all : List Ability :=
  [.BLOCKING, .TACKLING, .INTERCEPTION, .SHOOTING, .DRIBBLING, .PASSING]

/-- Dictionary lookup in an ability dictionary, `none` modelling a raised
KeyError. -/
def lookupAb (d : List (Ability × ℝ)) (a : Ability) : Option ℝ :=
  (d.find? (fun q => q.1 == a)).map (·.2)

/-- The `Abilities` dictionary constructor (`Abilities.__init__`): the given
partial dictionary extended, in enumeration order, with a zero entry for
every ability not already present. -/
def abilitiesOfDict (d : List (Ability × ℝ)) : List (Ability × ℝ) :=
  d ++ (Ability.all.filter (fun a => (lookupAb d a).isNone)).map (fun a => (a, 0))

/-- Sequence a list of optional values, failing when any element fails (the
sequencing of the per-player dictionary lookups). -/
def mapMO {A B : Type} (f : A -> Option B) : List A -> Option (List B)
  | [] => some []
  | x :: rest =>
    match f x, mapMO f rest with
    | some v, some vs => some (v :: vs)
    | _, _ => none

/-- Dictionary-level `total_ability`: the per-player `abilities[ability]`
lookups the source performs made explicit; the aggregate exists only when
every lookup succeeds. -/
noncomputable def total_ability_dict
    (players : List (List (Ability × ℝ) × Position)) (ab : Ability)
    (pos : Position) : Option ℝ :=
  (mapMO (fun q => lookupAb q.1 ab) (players.filter (fun q => q.2 == pos))).map
    (fun vs => Real.sqrt (vs.sum *
      (if pos = Position.GK then goal_keeper_correction else 1.0)))

lemma logistic_pos (x : ℝ) : 0 < logistic x := by
  have h := Real.exp_pos (-x)
  unfold logistic
  positivity

lemma logistic_lt_one (x : ℝ) : logistic x < 1 := by
  have h := Real.exp_pos (-x)
  unfold logistic
  rw [div_lt_one (by linarith)]
  linarith

lemma logistic_bounds (x : ℝ) : 0 ≤ logistic x ∧ logistic x ≤ 1 :=
  ⟨(logistic_pos x).le, (logistic_lt_one x).le⟩

lemma one_sub_logistic_bounds (x : ℝ) : 0 ≤ 1.0 - logistic x ∧ 1.0 - logistic x ≤ 1 := by
  have h1 := logistic_pos x
  have h2 := logistic_lt_one x
  norm_num
  constructor <;> linarith

lemma tx_prob_bounds (l ol : TeamLineup) :
    ∀ t ∈ _calculate_team_probs l ol, 0 ≤ t.p ∧ t.p ≤ 1 := by
  intro t ht
  simp only [_calculate_team_probs, List.mem_cons, List.not_mem_nil, or_false] at ht
  rcases ht with rfl | rfl | rfl | rfl | rfl | rfl | rfl | rfl <;>
    first
      | exact logistic_bounds _
      | exact one_sub_logistic_bounds _

lemma outgoingProbSum_append (a b : List Tx) (s : S) :
    outgoingProbSum (a ++ b) s = outgoingProbSum a s + outgoingProbSum b s := by
  simp [outgoingProbSum]

lemma outgoingProbSum_team_own (l ol : TeamLineup) (ts : TeamState)
    (h : ts ≠ TeamState.SCORED) :
    outgoingProbSum (_calculate_team_probs l ol) ⟨l.name, ts⟩ = 1 := by
  cases ts with
  | WITH_GK => simp [outgoingProbSum, _calculate_team_probs, S.mk.injEq]; ring
  | WITH_D => simp [outgoingProbSum, _calculate_team_probs, S.mk.injEq]; ring
  | WITH_M => simp [outgoingProbSum, _calculate_team_probs, S.mk.injEq]; ring
  | WITH_F => simp [outgoingProbSum, _calculate_team_probs, S.mk.injEq]; ring
  | SCORED => exact absurd rfl h

lemma outgoingProbSum_team_other (l ol : TeamLineup) (n : String)
    (hn : n ≠ l.name) (ts : TeamState) :
    outgoingProbSum (_calculate_team_probs l ol) ⟨n, ts⟩ = 0 := by
  simp [outgoingProbSum, _calculate_team_probs, S.mk.injEq, Ne.symm hn]

/-- C1: for every pair of lineups with distinct team names, every transition
of the chain built by `calculate_markov_chain` has probability in the unit
interval, and for every transient source state (team, phase) the outgoing
transition probabilities sum exactly to one. -/
theorem chain_probs_in_unit_and_rows_sum_one (l1 l2 : TeamLineup)
    (h : l1.name ≠ l2.name) :
    (∀ t ∈ calculate_markov_chain l1 l2, 0 ≤ t.p ∧ t.p ≤ 1) ∧
    (∀ nm ∈ [l1.name, l2.name], ∀ ts : TeamState, ts ≠ TeamState.SCORED →
      outgoingProbSum (calculate_markov_chain l1 l2) ⟨nm, ts⟩ = 1) := by
  constructor
  · intro t ht
    rcases List.mem_append.mp ht with h1 | h2
    · exact tx_prob_bounds l1 l2 t h1
    · exact tx_prob_bounds l2 l1 t h2
  · intro nm hnm ts hts
    rcases List.mem_cons.mp hnm with rfl | hnm
    · rw [calculate_markov_chain, outgoingProbSum_append,
        outgoingProbSum_team_own l1 l2 ts hts,
        outgoingProbSum_team_other l2 l1 l1.name h]
      ring
    · rcases List.mem_singleton.mp hnm with rfl
      rw [calculate_markov_chain, outgoingProbSum_append,
        outgoingProbSum_team_other l1 l2 l2.name (Ne.symm h),
        outgoingProbSum_team_own l2 l1 ts hts]
      ring

/-- Witness for C1 at the concrete pair of lineups `teamA`, `teamB`. -/
theorem chain_probs_in_unit_and_rows_sum_one_witness :
    outgoingProbSum (calculate_markov_chain teamA teamB) ⟨"A", TeamState.WITH_D⟩ = 1 :=
  (chain_probs_in_unit_and_rows_sum_one teamA teamB (by decide)).2 "A"
    (by simp [teamA]) TeamState.WITH_D (by decide)

/-- C2: the probability of a successful pass from defense to midfield is the
logistic of own defense passing plus own defense dribbling minus opposing
forward tackling minus opposing midfield interception, and the chain builder
emits own WITH_D to own WITH_M with that probability and own WITH_D to
opposing WITH_M with its complement. -/
theorem defense_to_midfield_pass_logistic (l ol : TeamLineup) :
    Tx.mk ⟨l.name, TeamState.WITH_D⟩ ⟨l.name, TeamState.WITH_M⟩
        (logistic (l.total_ability Ability.PASSING Position.D +
          l.total_ability Ability.DRIBBLING Position.D -
          ol.total_ability Ability.TACKLING Position.F -
          ol.total_ability Ability.INTERCEPTION Position.M)) ∈
      calculate_markov_chain l ol ∧
    Tx.mk ⟨l.name, TeamState.WITH_D⟩ ⟨ol.name, TeamState.WITH_M⟩
        (1.0 - logistic (l.total_ability Ability.PASSING Position.D +
          l.total_ability Ability.DRIBBLING Position.D -
          ol.total_ability Ability.TACKLING Position.F -
          ol.total_ability Ability.INTERCEPTION Position.M)) ∈
      calculate_markov_chain l ol := by
  constructor <;> simp [calculate_markov_chain, _calculate_team_probs]

/-- Counterexample for C3: in the chain built for the concrete lineups
`teamA` and `teamB` there is no transition at all from the midfield
possession state of team A to the SCORED state of team A; the midfield
shooting transitions of the claim are absent (they are commented out in the
source). -/
theorem no_midfield_shot_counterexample :
    ((calculate_markov_chain teamA teamB).filter
        (fun t => decide (t.src = ⟨"A", TeamState.WITH_M⟩) &&
          decide (t.dst = ⟨"A", TeamState.SCORED⟩))) = [] := by
  simp [calculate_markov_chain, _calculate_team_probs, teamA, teamB, S.mk.injEq]

/-- C3 amended: shooting transitions exist only from the forward state: for
each team the chain contains the pair WITH_F to own SCORED on success and
WITH_F to the opposing WITH_GK on failure, with the success probability the
logistic of forward shooting plus forward dribbling minus opposing defense
tackling, defense blocking and goalkeeper blocking; and no transition from a
midfield state reaches a SCORED state. -/
theorem shooting_transitions_only_from_forward (l ol : TeamLineup) :
    Tx.mk ⟨l.name, TeamState.WITH_F⟩ ⟨l.name, TeamState.SCORED⟩
        (logistic (l.total_ability Ability.SHOOTING Position.F +
          l.total_ability Ability.DRIBBLING Position.F -
          ol.total_ability Ability.TACKLING Position.D -
          ol.total_ability Ability.BLOCKING Position.D -
          ol.total_ability Ability.BLOCKING Position.GK)) ∈
      calculate_markov_chain l ol ∧
    Tx.mk ⟨l.name, TeamState.WITH_F⟩ ⟨ol.name, TeamState.WITH_GK⟩
        (1.0 - logistic (l.total_ability Ability.SHOOTING Position.F +
          l.total_ability Ability.DRIBBLING Position.F -
          ol.total_ability Ability.TACKLING Position.D -
          ol.total_ability Ability.BLOCKING Position.D -
          ol.total_ability Ability.BLOCKING Position.GK)) ∈
      calculate_markov_chain l ol ∧
    Tx.mk ⟨ol.name, TeamState.WITH_F⟩ ⟨ol.name, TeamState.SCORED⟩
        (logistic (ol.total_ability Ability.SHOOTING Position.F +
          ol.total_ability Ability.DRIBBLING Position.F -
          l.total_ability Ability.TACKLING Position.D -
          l.total_ability Ability.BLOCKING Position.D -
          l.total_ability Ability.BLOCKING Position.GK)) ∈
      calculate_markov_chain l ol ∧
    ∀ t ∈ calculate_markov_chain l ol, t.src.team_state = TeamState.WITH_M →
      t.dst.team_state ≠ TeamState.SCORED := by
  refine ⟨by simp [calculate_markov_chain, _calculate_team_probs],
    by simp [calculate_markov_chain, _calculate_team_probs],
    by simp [calculate_markov_chain, _calculate_team_probs], ?_⟩
  intro t ht
  simp only [calculate_markov_chain, _calculate_team_probs, List.mem_append,
    List.mem_cons, List.not_mem_nil, or_false] at ht
  rcases ht with (rfl | rfl | rfl | rfl | rfl | rfl | rfl | rfl) |
    (rfl | rfl | rfl | rfl | rfl | rfl | rfl | rfl) <;> simp

lemma absorbing_states_chain (l1 l2 : TeamLineup) (h : l1.name ≠ l2.name) :
    absorbing_states (calculate_markov_chain l1 l2) =
      [⟨l1.name, TeamState.SCORED⟩, ⟨l2.name, TeamState.SCORED⟩] := by
  simp [absorbing_states, hasOutgoing, calculate_markov_chain,
    _calculate_team_probs, S.mk.injEq, h, Ne.symm h]

lemma next_goal_probs_eq_claim (l r : TeamLineup) (h : l.name ≠ r.name)
    (phases : List TeamState) :
    next_goal_probs (calculate_markov_chain l r) phases
        ⟨l.name, TeamState.SCORED⟩ = claimNextGoalProb l r phases := by
  unfold next_goal_probs claimNextGoalProb
  rw [absorbing_states_chain l r h]
  simp [calculate_mean_outcome_given_states]

/-- C6: the optimizer objective for a lineup equals the mean, over the
reference lineups of the group, of the probability that this lineup reaches
its SCORED state from the given start phases against each opponent, the self
comparison contributing the fixed value 0.5 instead of a chain computation. -/
theorem optimizer_objective_is_mean_next_goal (phases : List TeamState)
    (l : TeamLineup) (refs : List TeamLineup) :
    optimizerObjective phases l refs = claimObjective l refs phases := by
  unfold optimizerObjective claimObjective evaluate_lineup
  congr 2
  apply List.map_congr_left
  intro r _
  by_cases hc : r.name = l.name
  · simp [hc]
  · simp only [hc, if_false]
    exact next_goal_probs_eq_claim l r (fun hh => hc hh.symm) phases

lemma optimiseStep_cases (evalFn : EvalFn) (mv : Move) (st : OptState)
    (nm : String) (st' : OptState)
    (h : optimiseStep evalFn mv st nm = .ok st') :
    st' = st ∨ st'.cycles_without_improvement = 0 := by
  unfold optimiseStep at h
  cases hl : lookupTeam st.lineups nm with
  | none =>
    simp only [hl] at h
    exact absurd h (by simp)
  | some lineup =>
    simp only [hl] at h
    cases hx : _experiment_with_positioning evalFn mv lineup (valuesOf st.lineups) with
    | error e =>
      simp only [hx] at h
      exact absurd h (by simp)
    | ok pr =>
      obtain ⟨tp, tl⟩ := pr
      cases tl with
      | none =>
        simp only [hx, Except.ok.injEq] at h
        exact Or.inl h.symm
      | some cand =>
        simp only [hx] at h
        by_cases hgt : tp > evalFn lineup (valuesOf st.lineups)
        · rw [if_pos hgt] at h
          simp only [Except.ok.injEq] at h
          exact Or.inr (by rw [← h])
        · rw [if_neg hgt] at h
          simp only [Except.ok.injEq] at h
          exact Or.inl h.symm

lemma optimisePass_counter (evalFn : EvalFn) (mvs : String → Move) :
    ∀ (names : List String) (st st' : OptState),
      optimisePass evalFn mvs st names = .ok st' →
      st'.cycles_without_improvement = st.cycles_without_improvement ∨
        st'.cycles_without_improvement = 0 := by
  intro names
  induction names with
  | nil =>
    intro st st' h
    simp only [optimisePass, Except.ok.injEq] at h
    exact Or.inl (by rw [← h])
  | cons nm rest ih =>
    intro st st' h
    simp only [optimisePass] at h
    cases hs : optimiseStep evalFn (mvs nm) st nm with
    | error e => rw [hs] at h; exact absurd h (by simp [Except.bind])
    | ok st1 =>
      rw [hs] at h
      simp only [Except.bind] at h
      rcases ih st1 st' h with h1 | h1
      · rcases optimiseStep_cases evalFn (mvs nm) st nm st1 hs with rfl | h2
        · exact Or.inl h1
        · exact Or.inr (h1.trans h2)
      · exact Or.inr h1

/-- Counterexample for C4: a concrete single-team pass in which the trial is
accepted (the lineup changes from `lineupMM` to `lineupFM`) but after the
pass the stall counter is 1, not 0: the source increments the counter after
every pass, accepting or not. -/
theorem counter_one_after_accepting_pass_counterexample :
    optimiseCycle evalX (fun _ => Move.repos player1 Position.F)
        ⟨[("A", lineupMM)], 0⟩ ["A"] = .ok ⟨[("A", lineupFM)], 1⟩ := by
  simp [optimiseCycle, optimisePass, optimiseStep, _experiment_with_positioning,
    TeamLineup.lookupPos, posOf, TeamLineup.with_player_positions, mkTeamLineup,
    dictUpdate, gkCount, lookupTeam, updateTeam, valuesOf, evalX, lineupMM,
    lineupFM, player1, player2, Except.bind, Except.map, zero_lt_one]

/-- C4 amended: accepting a trial sets the stall counter to zero; the counter
is incremented by one at the end of every full pass, accepting or not, so a
pass ends with counter 1 when some trial was accepted after the last reset
and with the old counter plus one otherwise; and the loop runs another pass
exactly while the counter is below the threshold. -/
theorem stall_counter_dynamics (evalFn : EvalFn) :
    (∀ mv st nm st', optimiseStep evalFn mv st nm = .ok st' →
      st'.lineups ≠ st.lineups → st'.cycles_without_improvement = 0) ∧
    (∀ mvs st names st', optimiseCycle evalFn mvs st names = .ok st' →
      st'.cycles_without_improvement = 1 ∨
        st'.cycles_without_improvement = st.cycles_without_improvement + 1) ∧
    (∀ mvs maxc names fuel st, maxc ≤ st.cycles_without_improvement →
      optimiseLoop evalFn mvs maxc names (fuel + 1) st = .ok st) ∧
    (∀ mvs maxc names fuel st, st.cycles_without_improvement < maxc →
      optimiseLoop evalFn mvs maxc names (fuel + 1) st =
        match optimiseCycle evalFn (mvs 0) st names with
        | .error e => .error e
        | .ok st' =>
          optimiseLoop evalFn (fun i => mvs (i + 1)) maxc names fuel st') := by
  refine ⟨?_, ?_, ?_, ?_⟩
  · intro mv st nm st' h hne
    rcases optimiseStep_cases evalFn mv st nm st' h with rfl | h0
    · exact absurd rfl hne
    · exact h0
  · intro mvs st names st' h
    unfold optimiseCycle at h
    cases hp : optimisePass evalFn mvs st names with
    | error e => rw [hp] at h; exact absurd h (by simp [Except.map])
    | ok stP =>
      rw [hp] at h
      simp only [Except.map, Except.ok.injEq] at h
      rcases optimisePass_counter evalFn mvs names st stP hp with h1 | h1
      · exact Or.inr (by rw [← h]; simp [h1])
      · exact Or.inl (by rw [← h]; simp [h1])
  · intro mvs maxc names fuel st h
    simp [optimiseLoop, Nat.not_lt.mpr h]
  · intro mvs maxc names fuel st h
    simp [optimiseLoop, h]

/-- Witness for C4 amended: a loop started with its counter already at the
threshold returns its state unchanged. -/
theorem stall_counter_dynamics_witness :
    optimiseLoop evalX (fun _ _ => Move.swap player1 player2) 2 ["A"] 1
        ⟨[("A", lineupMM)], 5⟩ = .ok ⟨[("A", lineupMM)], 5⟩ :=
  (stall_counter_dynamics evalX).2.2.1 (fun _ _ => Move.swap player1 player2)
    2 ["A"] 0 ⟨[("A", lineupMM)], 5⟩ (by norm_num)

/-- C5: a trial that produced a candidate lineup is accepted, replacing the
team entry in the dictionary and resetting the stall counter, exactly when
the candidate objective strictly exceeds the current objective, both
evaluated against the current dictionary values; and a pass threads the
updated state to the remaining teams, so later teams in the same pass see
already updated opponents. -/
theorem trial_accepted_iff_strict_improvement (evalFn : EvalFn) :
    (∀ mv st nm lineup trial_p trial_lineup,
      lookupTeam st.lineups nm = some lineup →
      _experiment_with_positioning evalFn mv lineup (valuesOf st.lineups) =
        .ok (trial_p, some trial_lineup) →
      (trial_p > evalFn lineup (valuesOf st.lineups) →
        optimiseStep evalFn mv st nm =
          .ok ⟨updateTeam st.lineups nm trial_lineup, 0⟩) ∧
      (¬ trial_p > evalFn lineup (valuesOf st.lineups) →
        optimiseStep evalFn mv st nm = .ok st)) ∧
    (∀ mvs st nm rest,
      optimisePass evalFn mvs st (nm :: rest) =
        match optimiseStep evalFn (mvs nm) st nm with
        | .error e => .error e
        | .ok st' => optimisePass evalFn mvs st' rest) := by
  constructor
  · intro mv st nm lineup trial_p trial_lineup hl hx
    constructor
    · intro hgt
      unfold optimiseStep
      simp only [hl, hx]
      rw [if_pos hgt]
    · intro hgt
      unfold optimiseStep
      simp only [hl, hx]
      rw [if_neg hgt]
  · intro mvs st nm rest
    rfl

/-- Witness for C5 at a concrete non-improving trial: the candidate exists
but its objective does not strictly exceed the current one, so the state is
unchanged. -/
theorem trial_accepted_iff_strict_improvement_witness :
    optimiseStep (fun _ _ => (0 : ℝ)) (Move.repos player1 Position.F)
        ⟨[("A", lineupMM)], 0⟩ "A" = .ok ⟨[("A", lineupMM)], 0⟩ :=
  ((trial_accepted_iff_strict_improvement (fun _ _ => (0 : ℝ))).1
    (Move.repos player1 Position.F) ⟨[("A", lineupMM)], 0⟩ "A" lineupMM 0
    lineupFM (by rfl) (by rfl)).2 (by simp)

/-- C7: a swap trial of two players occupying the same position, and a trial
whose candidate lineup fails validation, both return no candidate and raise
nothing; the optimizer step then leaves its state unchanged, so the current
lineup survives the trial. -/
theorem rejected_trials_leave_lineup_unchanged (evalFn : EvalFn) :
    (∀ l refs pa pb pos, TeamLineup.lookupPos l pa = some pos →
      TeamLineup.lookupPos l pb = some pos →
      _experiment_with_positioning evalFn (Move.swap pa pb) l refs =
        .ok (0, none)) ∧
    (∀ l refs pl newPos oldPos err, TeamLineup.lookupPos l pl = some oldPos →
      l.with_player_positions [(pl, newPos)] = .error err →
      _experiment_with_positioning evalFn (Move.repos pl newPos) l refs =
        .ok (0, none)) ∧
    (∀ mv st nm lineup trial_p, lookupTeam st.lineups nm = some lineup →
      _experiment_with_positioning evalFn mv lineup (valuesOf st.lineups) =
        .ok (trial_p, none) →
      optimiseStep evalFn mv st nm = .ok st) := by
  refine ⟨?_, ?_, ?_⟩
  · intro l refs pa pb pos h1 h2
    unfold _experiment_with_positioning
    simp only [h1, h2, if_true]
  · intro l refs pl newPos oldPos err h1 h2
    unfold _experiment_with_positioning
    simp only [h1, h2]
  · intro mv st nm lineup trial_p hl hx
    unfold optimiseStep
    simp only [hl, hx]

/-- Witness for C7 at a concrete invalid reposition: moving a defender onto
the goalkeeper position of a lineup that already has a goalkeeper is caught
and rejected. -/
theorem rejected_trials_leave_lineup_unchanged_witness :
    _experiment_with_positioning evalX (Move.repos player1 Position.GK)
        lineupGKD [] = .ok (0, none) :=
  (rejected_trials_leave_lineup_unchanged evalX).2.1 lineupGKD [] player1
    Position.GK Position.D "Can only have zero or one Goal Keepers."
    (by rfl) (by rfl)

lemma optimisePass_id (evalFn : EvalFn) (mvs : String → Move)
    (m : List (String × TeamLineup)) :
    ∀ (names : List String) (c : ℕ),
      (∀ nm ∈ names, optimiseStep evalFn (mvs nm) ⟨m, c⟩ nm = .ok ⟨m, c⟩) →
      optimisePass evalFn mvs ⟨m, c⟩ names = .ok ⟨m, c⟩ := by
  intro names
  induction names with
  | nil => intro c hstep; rfl
  | cons nm rest ih =>
    intro c hstep
    have h1 := hstep nm (List.mem_cons_self nm rest)
    simp only [optimisePass, h1]
    exact ih c (fun x hx => hstep x (List.mem_cons_of_mem nm hx))

lemma optimiseLoop_id (evalFn : EvalFn) (maxc : ℕ)
    (m : List (String × TeamLineup)) (names : List String) :
    ∀ (fuel : ℕ) (mvs : ℕ → String → Move) (c : ℕ),
      (∀ i c' nm, nm ∈ names →
        optimiseStep evalFn (mvs i nm) ⟨m, c'⟩ nm = .ok ⟨m, c'⟩) →
      c ≤ maxc → maxc ≤ c + fuel →
      optimiseLoop evalFn mvs maxc names fuel ⟨m, c⟩ = .ok ⟨m, maxc⟩ := by
  intro fuel
  induction fuel with
  | zero =>
    intro mvs c hstep hc1 hc2
    have hcm : c = maxc := le_antisymm hc1 (by simpa using hc2)
    rw [hcm]
    rfl
  | succ fuel ih =>
    intro mvs c hstep hc1 hc2
    by_cases hlt : c < maxc
    · have hpass := optimisePass_id evalFn (mvs 0) m names c
        (fun nm h => hstep 0 c nm h)
      have hcycle : optimiseCycle evalFn (mvs 0) ⟨m, c⟩ names = .ok ⟨m, c + 1⟩ := by
        unfold optimiseCycle
        rw [hpass]
        rfl
      simp only [optimiseLoop, hlt, if_true, hcycle]
      exact ih (fun i => mvs (i + 1)) (c + 1)
        (fun i c' nm h => hstep (i + 1) c' nm h)
        (Nat.succ_le_of_lt hlt) (by omega)
    · have hcm : c = maxc := le_antisymm hc1 (Nat.not_lt.mp hlt)
      simp only [optimiseLoop, hlt, if_false]
      rw [hcm]

/-- C8: a run of the optimizer in which every trial of every pass rejects,
leaving the state unchanged, returns the input team-name-to-lineup dictionary
itself once the stall threshold is reached. -/
theorem optimizer_returns_input_when_no_trial_accepted
    (team_states : List TeamState) (mvs : ℕ → String → Move)
    (m : List (String × TeamLineup)) (maxc fuel : ℕ)
    (hreject : ∀ i c nm, nm ∈ m.map (fun e => e.1) →
      optimiseStep (fun l refs => optimizerObjective team_states l refs)
        (mvs i nm) ⟨m, c⟩ nm = .ok ⟨m, c⟩)
    (hfuel : maxc ≤ fuel) :
    optmise_player_positions_in_parrallel m team_states mvs fuel maxc =
      .ok m := by
  unfold optmise_player_positions_in_parrallel
  rw [optimiseLoop_id (fun l refs => optimizerObjective team_states l refs)
    maxc m (m.map (fun e => e.1)) fuel mvs 0
    (fun i c nm h => hreject i c nm h) (Nat.zero_le maxc) (by simpa using hfuel)]
  rfl

/-- Witness for C8: a single-team run whose only move is a same-position swap
returns the input dictionary. -/
theorem optimizer_returns_input_when_no_trial_accepted_witness :
    optmise_player_positions_in_parrallel [("A", lineupMM)] [TeamState.WITH_M]
        (fun _ _ => Move.swap player1 player2) 1 1 = .ok [("A", lineupMM)] :=
  optimizer_returns_input_when_no_trial_accepted [TeamState.WITH_M]
    (fun _ _ => Move.swap player1 player2) [("A", lineupMM)] 1 1
    (by
      intro i c nm hnm
      simp only [List.map_cons, List.map_nil, List.mem_singleton] at hnm
      subst hnm
      rfl)
    (le_refl 1)

/-- Counterexample for C9: repositioning the defender of `lineupGKD` onto the
goalkeeper position does not return a new lineup: the validating constructor
raises the goalkeeper error, so the claim, universally quantified over all
reassignment lists, fails. -/
theorem with_player_positions_raises_counterexample :
    lineupGKD.with_player_positions [(player1, Position.GK)] =
      .error "Can only have zero or one Goal Keepers." := by rfl

lemma posOf_cons (q : Player × Position) (rest : List (Player × Position))
    (x : ℕ) :
    posOf (q :: rest) x = if q.1.pid = x then some q.2 else posOf rest x := by
  by_cases h : q.1.pid = x
  · simp [posOf, List.find?_cons, h]
  · simp [posOf, List.find?_cons, h]

lemma posOf_map_repos (ps : List (Player × Position)) (pl : Player)
    (pos : Position) (x : ℕ) :
    posOf (ps.map (fun q => if q.1.pid == pl.pid then (q.1, pos) else q)) x =
      if x = pl.pid then (posOf ps x).map (fun _ => pos) else posOf ps x := by
  induction ps with
  | nil => by_cases hx : x = pl.pid <;> simp [posOf, hx]
  | cons q rest ih =>
    by_cases hq : q.1.pid = pl.pid
    · by_cases hx : x = pl.pid
      · simp [List.map_cons, hq, posOf_cons, hq.trans hx.symm, hx]
      · have hpx : ¬ pl.pid = x := fun hh => hx hh.symm
        simp [List.map_cons, hq, posOf_cons, hpx, hx]
        simpa [hx] using ih
    · by_cases hqx : q.1.pid = x
      · have hx : ¬ x = pl.pid := fun hh => hq (hqx.trans hh)
        simp [List.map_cons, posOf_cons, hq, hqx, hx]
      · simp [List.map_cons, posOf_cons, hq, hqx]
        simpa using ih

lemma posOf_dictUpdate (ps : List (Player × Position)) (pl : Player)
    (pos : Position) (x : ℕ) :
    posOf (dictUpdate ps pl pos) x =
      if x = pl.pid then some pos else posOf ps x := by
  unfold dictUpdate
  by_cases hany : ps.any (fun q => q.1.pid == pl.pid)
  · rw [if_pos hany, posOf_map_repos]
    by_cases hx : x = pl.pid
    · rw [if_pos hx, if_pos hx]
      cases hv : posOf ps x with
      | some v => rfl
      | none =>
        exfalso
        rcases List.any_eq_true.mp hany with ⟨q, hqmem, hq⟩
        have hfd : ps.find? (fun e => e.1.pid == x) = none := by
          unfold posOf at hv
          exact Option.map_eq_none'.mp hv
        have hnp := List.find?_eq_none.mp hfd q hqmem
        rw [hx] at hnp
        exact hnp hq
    · rw [if_neg hx, if_neg hx]
  · rw [if_neg hany]
    have hfd : ps.find? (fun e => e.1.pid == pl.pid) = none := by
      apply List.find?_eq_none.mpr
      intro e hmem hbe
      exact hany (List.any_eq_true.mpr ⟨e, hmem, hbe⟩)
    by_cases hx : x = pl.pid
    · rw [if_pos hx]
      unfold posOf
      rw [List.find?_append, hx, hfd]
      simp [List.find?_cons]
    · rw [if_neg hx]
      unfold posOf
      rw [List.find?_append]
      cases hfd2 : ps.find? (fun q => q.1.pid == x) with
      | some e => simp
      | none =>
        have hpx : ¬ pl.pid = x := fun hh => hx hh.symm
        simp [List.find?_cons, hpx]

lemma posOf_foldl_dictUpdate (pps : List (Player × Position)) :
    ∀ (ps : List (Player × Position)) (x : ℕ),
      posOf (pps.foldl (fun a q => dictUpdate a q.1 q.2) ps) x =
        (assignedPos pps x).orElse (fun _ => posOf ps x) := by
  induction pps with
  | nil => intro ps x; simp [assignedPos]
  | cons q rest ih =>
    intro ps x
    rw [List.foldl_cons, ih (dictUpdate ps q.1 q.2) x, posOf_dictUpdate]
    unfold assignedPos
    rw [List.reverse_cons, List.find?_append]
    cases hfd : rest.reverse.find? (fun e => e.1.pid == x) with
    | some e => simp
    | none =>
      by_cases hq : q.1.pid = x
      · simp [List.find?_cons, hq]
      · have : ¬ x = q.1.pid := fun hh => hq hh.symm
        simp [List.find?_cons, hq, this]

/-- C9 amended: whenever `with_player_positions` returns normally, so whenever
the updated configuration passes validation (at most eleven players, at most
one goalkeeper), the returned lineup keeps the receiver name, its dictionary
is the receiver dictionary updated by the reassignments in order, and the
position of every player in it is the last position assigned by the
reassignment list, falling back to the receiver position; the receiver itself
is a value the call never mutates. -/
theorem with_player_positions_functional (l : TeamLineup)
    (pps : List (Player × Position)) (l' : TeamLineup)
    (h : l.with_player_positions pps = .ok l') :
    l'.name = l.name ∧
    l'.players = pps.foldl (fun ps q => dictUpdate ps q.1 q.2) l.players ∧
    ∀ pl : Player, l'.lookupPos pl =
      (assignedPos pps pl.pid).orElse (fun _ => l.lookupPos pl) := by
  unfold TeamLineup.with_player_positions mkTeamLineup at h
  split_ifs at h
  injection h with h'
  subst h'
  refine ⟨rfl, rfl, ?_⟩
  intro pl
  unfold TeamLineup.lookupPos
  exact posOf_foldl_dictUpdate pps l.players pl.pid

/-- Witness for C9 amended at a concrete successful reposition. -/
theorem with_player_positions_functional_witness :
    lineupGKM.name = lineupGKD.name ∧
    lineupGKM.lookupPos player1 =
      (assignedPos [(player1, Position.M)] player1.pid).orElse
        (fun _ => lineupGKD.lookupPos player1) :=
  ⟨(with_player_positions_functional lineupGKD [(player1, Position.M)]
      lineupGKM (by rfl)).1,
    (with_player_positions_functional lineupGKD [(player1, Position.M)]
      lineupGKM (by rfl)).2.2 player1⟩

lemma find?_pair_zero (M : List Ability) (a : Ability) (h : a ∈ M) :
    (M.map (fun x => (x, (0:ℝ)))).find? (fun q => q.1 == a) = some (a, 0) := by
  induction M with
  | nil => cases h
  | cons b rest ih =>
    by_cases hb : b = a
    · subst hb
      simp [List.find?_cons]
    · have h' : a ∈ rest := by
        rcases List.mem_cons.mp h with hh | hh
        · exact absurd hh.symm hb
        · exact hh
      simp [List.find?_cons, hb, ih h']

lemma lookupAb_ofDict (d : List (Ability × ℝ)) (a : Ability) :
    lookupAb (abilitiesOfDict d) a = some ((lookupAb d a).getD 0) := by
  unfold abilitiesOfDict lookupAb
  rw [List.find?_append]
  cases hfd : d.find? (fun q => q.1 == a) with
  | some e => simp [lookupAb, hfd]
  | none =>
    cases a <;>
      simp [lookupAb, Ability.all, List.find?_cons, hfd]

lemma mapMO_map {A C B : Type} (L : List A) (f : A → C) (h : C → Option B) :
    mapMO h (L.map f) = mapMO (fun x => h (f x)) L := by
  induction L with
  | nil => rfl
  | cons x rest ih => simp [mapMO, ih]

lemma mapMO_eq_map_of_some {A B : Type} (L : List A) (f : A → Option B)
    (g : A → B) (h : ∀ x ∈ L, f x = some (g x)) :
    mapMO f L = some (L.map g) := by
  induction L with
  | nil => rfl
  | cons x rest ih =>
    simp [mapMO, h x (List.mem_cons_self x rest),
      ih (fun y hy => h y (List.mem_cons_of_mem x hy))]

/-- C10: the Abilities constructor yields a dictionary defined on every
ability, with the value zero for abilities absent from the partial input, so
every ability lookup that total_ability performs on constructor-built
dictionaries succeeds, and the aggregate equals the square root of the summed
looked-up values with the goalkeeper correction applied. -/
theorem abilities_default_zero_and_total_ability_safe :
    (∀ (d : List (Ability × ℝ)) (a : Ability),
      lookupAb (abilitiesOfDict d) a = some ((lookupAb d a).getD 0)) ∧
    (∀ (players : List (List (Ability × ℝ) × Position)) (ab : Ability)
        (pos : Position),
      total_ability_dict (players.map (fun q => (abilitiesOfDict q.1, q.2)))
          ab pos =
        some (Real.sqrt ((((players.filter (fun q => q.2 == pos)).map
            (fun q => (lookupAb q.1 ab).getD 0)).sum) *
          (if pos = Position.GK then goal_keeper_correction else 1.0)))) := by
  constructor
  · exact lookupAb_ofDict
  · intro players ab pos
    unfold total_ability_dict
    rw [List.filter_map, mapMO_map]
    simp only [Function.comp]
    rw [mapMO_eq_map_of_some _ _ (fun q => (lookupAb q.1 ab).getD 0)
      (fun q hq => lookupAb_ofDict q.1 ab)]
    rfl

/-- Witness for C3 amended at the concrete pair of lineups `teamA`,
`teamB`. -/
theorem shooting_transitions_only_from_forward_witness :
    Tx.mk ⟨"A", TeamState.WITH_F⟩ ⟨"A", TeamState.SCORED⟩
        (logistic (teamA.total_ability Ability.SHOOTING Position.F +
          teamA.total_ability Ability.DRIBBLING Position.F -
          teamB.total_ability Ability.TACKLING Position.D -
          teamB.total_ability Ability.BLOCKING Position.D -
          teamB.total_ability Ability.BLOCKING Position.GK)) ∈
      calculate_markov_chain teamA teamB :=
  (shooting_transitions_only_from_forward teamA teamB).1
